import Mathlib

/-!
Verification development for the out-of-process RPC client of `ccstats`
(package `internal/codex`, app-server client).  The Go source is shallowly
embedded: JSON values are an inductive type, the background reader loop is a
function on the list of lines read from the child's stdout, and the blocking
wait inside `sendRequest` is a function on the linearized sequence of events
(channel deliveries and context cancellation) observed by the select loop.
-/

namespace Ccstats

/-- JSON values, the decoded form of one wire line.  Numbers are modelled as
integers (the protocol only uses integral identifiers). -/
inductive Json where
  | null : Json
  | bool (b : Bool) : Json
  | num (n : Int) : Json
  | str (s : String) : Json
  | arr (elems : List Json) : Json
  | obj (fields : List (String × Json)) : Json


/-- Embeds `rpcError` (`src/internal/codex/usage_test.go:168`): the error
descriptor `{code, message}` of a wire message. -/
structure rpcError where
  code : Int
  message : String


/-- Embeds `rpcMessage` (`src/internal/codex/usage_test.go:160`).  The Go
struct holds `ID`, `Params` and `Result` as `json.RawMessage`; here a raw
field is the already-decoded JSON value, with `none` for an absent field
(a nil raw message of length 0). -/
structure rpcMessage where
  id : Option Json := none
  method : String := ""
  params : Option Json := none
  result : Option Json := none
  error : Option rpcError := none


/-- Go's `json.Unmarshal(raw, &intID)` for `intID : int`: succeeds on an
integral JSON number, and on JSON `null` (which Go treats as a no-op,
leaving the zero value `0` in place); fails on every other shape. -/
def goUnmarshalInt : Json → Option Int
  | Json.num n => some n
  | Json.null => some 0
  | _ => none

/-- Go's `json.Unmarshal(raw, &strID)` for `strID : string`: succeeds on a
JSON string, and on JSON `null` (no-op, leaving `""`); fails otherwise. -/
def goUnmarshalString : Json → Option String
  | Json.str s => some s
  | Json.null => some ""
  | _ => none

/-- Embeds `idMatches` (`src/internal/codex/usage_test.go:316`): an absent
raw identifier never matches; otherwise try to decode it as an integer and
compare with `id`, and only if integer decoding fails, try to decode it as a
string and compare with the base-10 rendering `fmt.Sprintf("%d", id)`. -/
def idMatches (raw : Option Json) (id : Int) : Bool :=
  match raw with
  | none => false
  | some j =>
    match goUnmarshalInt j with
    | some intID => intID == id
    | none =>
      match goUnmarshalString j with
      | some strID => strID == toString id
      | none => false

/-- The four byte values Go's `bytesTrimSpace` strips: space, newline,
carriage return, tab. -/
def isTrimmedByte (b : Nat) : Bool :=
  b == 32 || b == 10 || b == 13 || b == 9

/-- Embeds `bytesTrimSpace` (`src/internal/codex/usage_test.go:334`): the Go
function advances `start` past leading space bytes and retreats `end` past
trailing ones, returning `b[start:end]`; on lists that is dropping the
matching prefix, then the matching suffix. -/
def bytesTrimSpace (b : List Nat) : List Nat :=
  ((b.dropWhile isTrimmedByte).reverse.dropWhile isTrimmedByte).reverse

/-- Embeds `readLoop` (`src/internal/codex/usage_test.go:206`) as a function
of the complete newline-terminated lines read from the child's stdout.
`decode` stands for `json.Unmarshal` into `rpcMessage` (a library call,
abstracted): `none` on a malformed line.  Each line is trimmed; an empty
trimmed line is skipped (`continue`); a line that fails to decode is skipped
(`continue`); a decoded message is delivered to the channel in order.  The
returned list is the sequence of messages delivered to `c.ch`. -/
def readLoop (decode : List Nat → Option rpcMessage) :
    List (List Nat) → List rpcMessage
  | [] => []
  | line :: rest =>
    let t := bytesTrimSpace line
    if t.length = 0 then readLoop decode rest
    else
      match decode t with
      | none => readLoop decode rest
      | some msg => msg :: readLoop decode rest

/-- One event observed by the `select` loop inside `sendRequest`: either the
cancellation context fires (`<-ctx.Done()`), or a message is received from
the delivery channel (`msg := <-c.ch`).  A run of the loop is linearized as
a list of such events. -/
inductive rpcEvent where
  | ctxDone : rpcEvent
  | msg (m : rpcMessage) : rpcEvent


/-- The ways `sendRequest` can return (or fail to return, with `pending`
marking an exhausted finite event list, i.e. the call is still blocked
waiting).  `ok v` is a nil error, with `v` the value decoded into the output
slot when one was supplied. -/
inductive SendOutcome (α : Type) where
  | ok (v : Option α) : SendOutcome α
  | ctxErr : SendOutcome α
  | notInit : SendOutcome α
  | remoteErr (text : String) : SendOutcome α
  | parseErr : SendOutcome α
  | writeErr : SendOutcome α
  | pending : SendOutcome α


/-- Embeds the `for { select { ... } }` loop of `sendRequest`
(`src/internal/codex/usage_test.go:281-306`).  In order: a fired context
returns `ctx.Err()`; a message with a non-nil error descriptor returns
`errNotInitialized` when its text is exactly "Not initialized" and a remote
error carrying the text otherwise; a message whose identifier does not match
is skipped; on a match, a nil output slot returns success at once, and
otherwise `json.Unmarshal(msg.Result, out)` runs — failing on an absent
result (unmarshalling a nil raw message fails) and on a decoder mismatch.
`out` stands for the output slot: `none` for a nil `out`, `some dec` for a
slot whose `json.Unmarshal` behaviour is the function `dec`. -/
def waitLoop {α : Type} (id : Int) (out : Option (Json → Option α)) :
    List rpcEvent → SendOutcome α
  | [] => SendOutcome.pending
  | rpcEvent.ctxDone :: _ => SendOutcome.ctxErr
  | rpcEvent.msg m :: rest =>
    match m.error with
    | some e =>
      if e.message == "Not initialized" then SendOutcome.notInit
      else SendOutcome.remoteErr e.message
    | none =>
      if idMatches m.id id then
        match out with
        | none => SendOutcome.ok none
        | some dec =>
          match m.result with
          | none => SendOutcome.parseErr
          | some r =>
            match dec r with
            | none => SendOutcome.parseErr
            | some v => SendOutcome.ok (some v)
      else waitLoop id out rest

/-- The serialized request body built by `sendRequest`
(`src/internal/codex/usage_test.go:263`): `{"id": id, "method": method,
"params": params}` (Go marshals map keys alphabetically). -/
def requestPayload (id : Int) (method : String) (params : Json) : Json :=
  Json.obj [("id", Json.num id), ("method", Json.str method), ("params", params)]

/-- The serialized notification body built by `sendNotification`
(`src/internal/codex/usage_test.go:246`): `{"method": method,
"params": params}` with no identifier. -/
def notificationPayload (method : String) (params : Json) : Json :=
  Json.obj [("method", Json.str method), ("params", params)]

/-- Embeds `sendRequest` (`src/internal/codex/usage_test.go:262`) end to
end: marshal the request, write it (under the mutex) as one line, and on a
write failure return that error before entering the wait loop; otherwise run
the wait loop over the events.  Returns the outcome together with the list
of complete message lines written to the child's stdin by this call. -/
def sendRequest {α : Type} (id : Int) (method : String) (params : Json)
    (out : Option (Json → Option α)) (writeOk : Bool)
    (events : List rpcEvent) : SendOutcome α × List Json :=
  if writeOk then (waitLoop id out events, [requestPayload id method params])
  else (SendOutcome.writeErr, [requestPayload id method params])

/-- Embeds `sendNotification` (`src/internal/codex/usage_test.go:245`):
marshal `{"method", "params"}`, write it as one line under the mutex, and
return the write error if any.  Returns whether a write error occurred and
the message line written. -/
def sendNotification (method : String) (params : Json) (writeOk : Bool) :
    Bool × List Json :=
  (!writeOk, [notificationPayload method params])

/-- Whether a `sendRequest` outcome is a nil error. -/
def SendOutcome.isOk {α : Type} : SendOutcome α → Bool
  | SendOutcome.ok _ => true
  | _ => false

/-- Embeds `appServerInitTimeout` (`src/internal/codex/usage_test.go:147`),
`3 * time.Second`, in seconds.  Real time is outside the model: the timeout
firing is represented by the `ctxDone` event. -/
def appServerInitTimeout : Nat := 3

/-- Embeds `appServerRequestTimeout` (`src/internal/codex/usage_test.go:148`),
`4 * time.Second`, in seconds. -/
def appServerRequestTimeout : Nat := 4

/-- The client-identity parameters built by `initialize`
(`src/internal/codex/usage_test.go:231`):
`{"clientInfo": {"name": "ccstats", "version": "0.0.0"}}`. -/
def initParams : Json :=
  Json.obj [("clientInfo",
    Json.obj [("name", Json.str "ccstats"), ("version", Json.str "0.0.0")])]

/-- Embeds `initialize` (`src/internal/codex/usage_test.go:227`): send the
request `id=1, method="initialize"` with the client-identity params and a
nil output slot under the 3-second context; if it errors, return that error;
otherwise send the notification `"initialized"` with nil params and return
its write error.  Returns the outcome and message lines written, in order.
`writeOk1`/`writeOk2` are the transport outcomes of the two writes. -/
def initializeClient (writeOk1 writeOk2 : Bool) (events : List rpcEvent) :
    SendOutcome Unit × List Json :=
  match sendRequest (α := Unit) 1 "initialize" initParams none writeOk1 events with
  | (SendOutcome.ok _, sent1) =>
    match sendNotification "initialized" Json.null writeOk2 with
    | (noteErred, sent2) =>
      (if noteErred then SendOutcome.writeErr else SendOutcome.ok none,
       sent1 ++ sent2)
  | (e, sent1) => (e, sent1)

/-- How far `newAppServerClient` gets before its handshake: one of the three
early pipe/start failures, or a started child process. -/
inductive SpawnPhase where
  | stdinPipeFail : SpawnPhase
  | stdoutPipeFail : SpawnPhase
  | startFail : SpawnPhase
  | started : SpawnPhase

/-- The error returned by `newAppServerClient`: a spawn-phase error, or the
error of the handshake (`initialize`) propagated unchanged. -/
inductive ConstructErr where
  | spawnErr (phase : SpawnPhase) : ConstructErr
  | handshakeErr (e : SendOutcome Unit) : ConstructErr

/-- The observable result of `newAppServerClient`: whether a (non-nil)
client was returned, the error if any, whether `Close` was called on the
partially-started client, and the message lines written during
construction. -/
structure ConstructOutcome where
  clientReturned : Bool
  err : Option ConstructErr
  closeCalled : Bool
  sent : List Json

/-- Embeds `newAppServerClient` (`src/internal/codex/usage_test.go:173`):
stdin-pipe, stdout-pipe or start failures return the error with no client
(nothing to tear down yet); with a started process, a handshake failure
calls `client.Close()` and returns `(nil, err)` with the same error; on
success the client is returned with a nil error and no teardown. -/
def newAppServerClient (spawn : SpawnPhase) (writeOk1 writeOk2 : Bool)
    (events : List rpcEvent) : ConstructOutcome :=
  match spawn with
  | SpawnPhase.started =>
    match initializeClient writeOk1 writeOk2 events with
    | (SendOutcome.ok _, sent) =>
      { clientReturned := true, err := none, closeCalled := false, sent := sent }
    | (e, sent) =>
      { clientReturned := false, err := some (ConstructErr.handshakeErr e),
        closeCalled := true, sent := sent }
  | ph =>
    { clientReturned := false, err := some (ConstructErr.spawnErr ph),
      closeCalled := false, sent := [] }

/-- The four teardown steps of `Close`
(`src/internal/codex/usage_test.go:309`), in source order. -/
inductive TeardownStep where
  | closeStdin : TeardownStep
  | closeStdout : TeardownStep
  | killProc : TeardownStep
  | waitProc : TeardownStep
deriving DecidableEq

/-- Which teardown resources have been acted on. -/
structure ProcState where
  stdinClosed : Bool
  stdoutClosed : Bool
  killed : Bool
  waited : Bool

/-- The error each underlying teardown call would return (`none` for
success): `c.stdin.Close()`, `c.stdout.Close()`, `c.cmd.Process.Kill()`,
`c.cmd.Process.Wait()` may each fail independently. -/
structure TeardownErrs where
  stdinCloseErr : Option String
  stdoutCloseErr : Option String
  killErr : Option String
  waitErr : Option String

/-- `c.stdin.Close()`: marks stdin closed, reporting its own error. -/
def closeStdinOp (errs : TeardownErrs) (s : ProcState) :
    ProcState × Option String :=
  ({ s with stdinClosed := true }, errs.stdinCloseErr)

/-- `c.stdout.Close()`: marks stdout closed, reporting its own error. -/
def closeStdoutOp (errs : TeardownErrs) (s : ProcState) :
    ProcState × Option String :=
  ({ s with stdoutClosed := true }, errs.stdoutCloseErr)

/-- `c.cmd.Process.Kill()`: marks the process killed, reporting its own
error. -/
def killOp (errs : TeardownErrs) (s : ProcState) : ProcState × Option String :=
  ({ s with killed := true }, errs.killErr)

/-- `c.cmd.Process.Wait()`: marks the process waited on, reporting its own
error. -/
def waitOp (errs : TeardownErrs) (s : ProcState) : ProcState × Option String :=
  ({ s with waited := true }, errs.waitErr)

/-- Embeds `Close` (`src/internal/codex/usage_test.go:309`): four
straight-line statements, each discarding its error (`_ = ...`), so every
step runs regardless of earlier failures and no error is surfaced.  Returns
the final state, the steps attempted in order, and the (always nil)
surfaced error. -/
def closeClient (errs : TeardownErrs) (s : ProcState) :
    ProcState × List TeardownStep × Option String :=
  let (s1, _e1) := closeStdinOp errs s
  let (s2, _e2) := closeStdoutOp errs s1
  let (s3, _e3) := killOp errs s2
  let (s4, _e4) := waitOp errs s3
  (s4, [TeardownStep.closeStdin, TeardownStep.closeStdout,
        TeardownStep.killProc, TeardownStep.waitProc], none)

/-- Progress of one writer through its mutex-protected write of a single
complete line (`c.mu.Lock(); c.stdin.Write(append(payload, '\n'));
c.mu.Unlock()` — the write path shared by `sendRequest` and
`sendNotification`).  `writing emitted rem`: the bytes already on the
stream and those still to emit. -/
inductive WPhase where
  | idle : WPhase
  | writing (emitted rem : List Nat) : WPhase
  | finished : WPhase
deriving DecidableEq

/-- State of the concurrent write system: the mutex holder, each writer
thread's phase (thread `t` writes line `t`), the bytes on the child's stdin
stream in emission order, and the threads in lock-acquisition order. -/
structure WSystem where
  lock : Option Nat
  phases : List WPhase
  stream : List Nat
  order : List Nat
deriving DecidableEq

/-- One scheduler step of writer thread `t`.  Acquiring requires the mutex
free; emitting one byte of the line and releasing require holding it —
exactly the discipline of `mu.Lock()`/`mu.Unlock()` around the single
`Write` call.  The write itself is modelled byte by byte, so that without
the mutex the scheduler could interleave bytes of different lines;
`none` means thread `t` cannot move (blocked on the mutex or done). -/
def wstep (lines : List (List Nat)) (s : WSystem) (t : Nat) : Option WSystem :=
  match s.phases[t]? with
  | none => none
  | some WPhase.idle =>
    match s.lock with
    | none => some { s with
        lock := some t
        phases := s.phases.set t (WPhase.writing [] (lines.getD t []))
        order := s.order ++ [t] }
    | some _ => none
  | some (WPhase.writing emitted rem) =>
    if s.lock = some t then
      match rem with
      | [] => some { s with
          lock := none
          phases := s.phases.set t WPhase.finished }
      | b :: rem2 => some { s with
          stream := s.stream ++ [b]
          phases := s.phases.set t (WPhase.writing (emitted ++ [b]) rem2) }
    else none
  | some WPhase.finished => none

/-- Run a schedule (a list of thread choices); `none` when the schedule
picks a blocked or finished thread. -/
def wrun (lines : List (List Nat)) (s : WSystem) : List Nat → Option WSystem
  | [] => some s
  | t :: sched =>
    match wstep lines s t with
    | none => none
    | some s2 => wrun lines s2 sched

/-- Initial state: mutex free, every writer idle, empty stream. -/
def winit (lines : List (List Nat)) : WSystem :=
  { lock := none, phases := lines.map (fun _ => WPhase.idle),
    stream := [], order := [] }

/-- The complete line a send call writes for message `m`:
`append(payload, '\n')` with `marshal` standing for `json.Marshal`. -/
def wireLine (marshal : Json → List Nat) (m : Json) : List Nat :=
  marshal m ++ [10]

/-- Mutual-exclusion invariant of the write system: phase table sized to
the lines; nobody acquires twice; when the mutex is free the stream is the
concatenation of the complete lines of the writers that finished, in
acquisition order; when some writer holds the mutex it is the only one
mid-write, it acquired last, and the stream is the finished writers'
complete lines followed by the holder's emitted prefix. -/
def WInv (lines : List (List Nat)) (s : WSystem) : Prop :=
  s.phases.length = lines.length ∧
  s.order.Nodup ∧
  (∀ t ∈ s.order, t < s.phases.length) ∧
  (∀ t, t < s.phases.length →
    (s.phases[t]? = some WPhase.idle ↔ t ∉ s.order)) ∧
  (s.lock = none →
    (∀ (t : Nat) (em rem : List Nat),
      s.phases[t]? ≠ some (WPhase.writing em rem)) ∧
    s.stream = (s.order.map fun u => lines.getD u []).flatten) ∧
  (∀ t, s.lock = some t →
    ∃ em rem, s.phases[t]? = some (WPhase.writing em rem) ∧
      lines.getD t [] = em ++ rem ∧
      (∃ o2, s.order = o2 ++ [t] ∧
        s.stream = (o2.map fun u => lines.getD u []).flatten ++ em) ∧
      (∀ (u : Nat) (em2 rem2 : List Nat), u ≠ t →
        s.phases[u]? ≠ some (WPhase.writing em2 rem2)))

lemma winit_phases_getElem? (lines : List (List Nat)) (t : Nat) :
    (winit lines).phases[t]? = Option.map (fun _ => WPhase.idle) lines[t]? := by
  show (lines.map fun _ => WPhase.idle)[t]? = _
  exact List.getElem?_map _ lines t

lemma winit_inv (lines : List (List Nat)) : WInv lines (winit lines) := by
  refine ⟨by simp [winit], by simp [winit], by simp [winit], ?_, ?_, ?_⟩
  · intro t ht
    have ht2 : t < lines.length := by simpa [winit] using ht
    rw [winit_phases_getElem?, List.getElem?_eq_getElem ht2]
    simp [winit]
  · intro _
    constructor
    · intro t em rem hcontra
      rw [winit_phases_getElem?] at hcontra
      cases h : lines[t]? <;> rw [h] at hcontra <;> simp at hcontra
    · simp [winit]
  · intro t h
    simp [winit] at h

lemma wstep_preserves (lines : List (List Nat)) (s : WSystem) (t : Nat)
    (s2 : WSystem) (hInv : WInv lines s) (h : wstep lines s t = some s2) :
    WInv lines s2 := by
  obtain ⟨hlen, hnd, hbound, hidle, hnone, hsome⟩ := hInv
  cases hph : s.phases[t]? with
  | none => rw [wstep, hph] at h; simp at h
  | some ph =>
    obtain ⟨ht, -⟩ := List.getElem?_eq_some.mp hph
    cases ph with
    | idle =>
      cases hlk : s.lock with
      | some u => rw [wstep, hph, hlk] at h; simp at h
      | none =>
        rw [wstep, hph, hlk] at h
        simp only [Option.some.injEq] at h
        subst h
        have htno : t ∉ s.order := (hidle t ht).mp hph
        refine ⟨by simpa using hlen, ?_, ?_, ?_, ?_, ?_⟩
        · show (s.order ++ [t]).Nodup
          rw [← List.concat_eq_append]
          exact List.Nodup.concat htno hnd
        · intro u hu
          rw [List.length_set]
          rcases List.mem_append.mp hu with h1 | h2
          · exact hbound u h1
          · simp at h2
            subst h2
            exact ht
        · intro u hu
          rw [List.length_set] at hu
          by_cases hut : u = t
          · subst hut
            rw [List.getElem?_set]
            simp [ht]
          · rw [List.getElem?_set, if_neg (Ne.symm hut)]
            rw [hidle u hu]
            simp [hut]
        · intro hcontra
          simp at hcontra
        · intro u hu
          simp only [Option.some.injEq] at hu
          subst hu
          refine ⟨[], lines.getD t [], ?_, by simp, ⟨s.order, rfl, ?_⟩, ?_⟩
          · rw [List.getElem?_set]
            simp [ht]
          · rw [(hnone hlk).2]
            simp
          · intro u2 em2 rem2 hne hcontra
            rw [List.getElem?_set, if_neg (Ne.symm hne)] at hcontra
            exact (hnone hlk).1 u2 em2 rem2 hcontra
    | writing em rem =>
      by_cases hlt : s.lock = some t
      · obtain ⟨em0, rem0, hph0, hline, ⟨o2, horder, hstream⟩, hothers⟩ :=
          hsome t hlt
        rw [hph] at hph0
        simp only [Option.some.injEq, WPhase.writing.injEq] at hph0
        obtain ⟨h1, h2⟩ := hph0
        subst h1
        subst h2
        cases rem with
        | nil =>
          rw [wstep, hph] at h
          simp only [hlt, if_pos, Option.some.injEq] at h
          subst h
          have hline2 : lines.getD t [] = em := by simpa using hline
          refine ⟨by simpa using hlen, hnd, ?_, ?_, ?_, ?_⟩
          · intro u hu
            rw [List.length_set]
            exact hbound u hu
          · intro u hu
            rw [List.length_set] at hu
            by_cases hut : u = t
            · subst hut
              rw [List.getElem?_set]
              simp [ht, horder]
            · rw [List.getElem?_set, if_neg (Ne.symm hut)]
              exact hidle u hu
          · intro _
            constructor
            · intro u em2 rem2 hcontra
              by_cases hut : u = t
              · subst hut
                rw [List.getElem?_set] at hcontra
                simp [ht] at hcontra
              · rw [List.getElem?_set, if_neg (Ne.symm hut)] at hcontra
                exact hothers u em2 rem2 hut hcontra
            · show s.stream = _
              rw [horder, List.map_append, List.flatten_append]
              have hline3 : lines[t]?.getD [] = em := by
                simpa [List.getD] using hline2
              simp [hstream, hline3]
          · intro u hu
            simp at hu
        | cons b rem2 =>
          rw [wstep, hph] at h
          simp only [hlt, if_pos, Option.some.injEq] at h
          subst h
          refine ⟨by simpa using hlen, hnd, ?_, ?_, ?_, ?_⟩
          · intro u hu
            rw [List.length_set]
            exact hbound u hu
          · intro u hu
            rw [List.length_set] at hu
            by_cases hut : u = t
            · subst hut
              rw [List.getElem?_set]
              simp [ht, horder]
            · rw [List.getElem?_set, if_neg (Ne.symm hut)]
              exact hidle u hu
          · intro hcontra
            have hc2 : (some t : Option Nat) = none := hcontra
            simp at hc2
          · intro u hu
            have hu2 : (some t : Option Nat) = some u := hu
            simp only [Option.some.injEq] at hu2
            subst hu2
            refine ⟨em ++ [b], rem2, ?_, ?_, ⟨o2, horder, ?_⟩, ?_⟩
            · rw [List.getElem?_set]
              simp [ht]
            · rw [hline]
              simp
            · show s.stream ++ [b] = _
              rw [hstream]
              simp [List.append_assoc]
            · intro u2 em2 rem2a hne hcontra
              rw [List.getElem?_set, if_neg (Ne.symm hne)] at hcontra
              exact hothers u2 em2 rem2a hne hcontra
      · rw [wstep, hph] at h
        simp [hlt] at h
    | finished => rw [wstep, hph] at h; simp at h

lemma wrun_preserves (lines : List (List Nat)) (sched : List Nat) :
    ∀ s s2 : WSystem, WInv lines s → wrun lines s sched = some s2 →
      WInv lines s2 := by
  induction sched with
  | nil =>
    intro s s2 hI h
    rw [wrun] at h
    simp only [Option.some.injEq] at h
    subst h
    exact hI
  | cons t sched ih =>
    intro s s2 hI h
    rw [wrun] at h
    cases hst : wstep lines s t with
    | none => rw [hst] at h; simp at h
    | some s1 =>
      rw [hst] at h
      exact ih s1 s2 (wstep_preserves lines s t s1 hI hst) h

lemma idMatches_num (id : Int) : idMatches (some (Json.num id)) id = true := by
  simp [idMatches, goUnmarshalInt]

lemma idMatches_str (id : Int) :
    idMatches (some (Json.str (toString id))) id = true := by
  simp [idMatches, goUnmarshalInt, goUnmarshalString]

lemma waitLoop_skip {α : Type} (id : Int) (out : Option (Json → Option α))
    (m : rpcMessage) (rest : List rpcEvent) (herr : m.error = none)
    (hid : idMatches m.id id = false) :
    waitLoop id out (rpcEvent.msg m :: rest) = waitLoop id out rest := by
  simp [waitLoop, herr, hid]

lemma waitLoop_skip_prefix {α : Type} (id : Int)
    (out : Option (Json → Option α)) (pre rest : List rpcEvent)
    (hpre : ∀ ev ∈ pre, ∃ m, ev = rpcEvent.msg m ∧ m.error = none ∧
      idMatches m.id id = false) :
    waitLoop id out (pre ++ rest) = waitLoop id out rest := by
  induction pre with
  | nil => rfl
  | cons ev pre ih =>
    obtain ⟨m, rfl, herr, hid⟩ := hpre ev (List.mem_cons_self ev pre)
    rw [List.cons_append, waitLoop_skip id out m (pre ++ rest) herr hid]
    exact ih fun e he => hpre e (List.mem_cons_of_mem _ he)

/-- C1: a message with no error descriptor whose identifier arrives as the
integer `id` or as its base-10 string form is accepted by `sendRequest` as
the matching response: it returns success, decoding the result into the
output slot when one was provided. -/
theorem sendRequest_matching_response_ok {α : Type} (id : Int)
    (method : String) (params : Json) (m : rpcMessage) (rest : List rpcEvent)
    (dec : Json → Option α) (r : Json) (v : α)
    (hid : m.id = some (Json.num id) ∨ m.id = some (Json.str (toString id)))
    (herr : m.error = none) (hres : m.result = some r)
    (hdec : dec r = some v) :
    (sendRequest id method params (some dec) true
        (rpcEvent.msg m :: rest)).1 = SendOutcome.ok (some v) ∧
    (sendRequest (α := α) id method params none true
        (rpcEvent.msg m :: rest)).1 = SendOutcome.ok none := by
  have hmatch : idMatches m.id id = true := by
    rcases hid with h | h <;> rw [h]
    · exact idMatches_num id
    · exact idMatches_str id
  constructor <;> simp [sendRequest, waitLoop, herr, hmatch, hres, hdec]

/-- C1 witness: a response with the string-encoded identifier `"7"` is
accepted for request 7 and its numeric result is decoded. -/
theorem sendRequest_matching_response_ok_witness :
    (sendRequest 7 "m" Json.null (some goUnmarshalInt) true
        [rpcEvent.msg { id := some (Json.str "7"),
                        result := some (Json.num 42) }]).1
      = SendOutcome.ok (some (42 : Int)) :=
  (sendRequest_matching_response_ok 7 "m" Json.null
    { id := some (Json.str "7"), result := some (Json.num 42) } []
    goUnmarshalInt (Json.num 42) 42 (Or.inr rfl) rfl rfl rfl).1

/-- C2: a message carrying a non-null error descriptor makes `sendRequest`
return an error regardless of its identifier: the distinguished
not-initialized error when the text is exactly "Not initialized", and a
remote error carrying the text verbatim otherwise. -/
theorem sendRequest_error_descriptor {α : Type} (id : Int) (method : String)
    (params : Json) (out : Option (Json → Option α)) (m : rpcMessage)
    (e : rpcError) (rest : List rpcEvent) (herr : m.error = some e) :
    (e.message = "Not initialized" →
      (sendRequest id method params out true (rpcEvent.msg m :: rest)).1
        = SendOutcome.notInit) ∧
    (e.message ≠ "Not initialized" →
      (sendRequest id method params out true (rpcEvent.msg m :: rest)).1
        = SendOutcome.remoteErr e.message) := by
  constructor <;> intro h <;> simp [sendRequest, waitLoop, herr, h]

/-- C2 witness: the exact text "Not initialized" yields the distinguished
error, and another text is carried verbatim in a remote error; the
message's identifier (3, not the awaited 1) is irrelevant. -/
theorem sendRequest_error_descriptor_witness :
    (sendRequest (α := Unit) 1 "m" Json.null none true
        [rpcEvent.msg { id := some (Json.num 3),
                        error := some ⟨-32000, "Not initialized"⟩ }]).1
      = SendOutcome.notInit ∧
    (sendRequest (α := Unit) 1 "m" Json.null none true
        [rpcEvent.msg { id := some (Json.num 3),
                        error := some ⟨-32000, "boom"⟩ }]).1
      = SendOutcome.remoteErr "boom" :=
  ⟨(sendRequest_error_descriptor 1 "m" Json.null none
      { id := some (Json.num 3), error := some ⟨-32000, "Not initialized"⟩ }
      ⟨-32000, "Not initialized"⟩ [] rfl).1 rfl,
   (sendRequest_error_descriptor 1 "m" Json.null none
      { id := some (Json.num 3), error := some ⟨-32000, "boom"⟩ }
      ⟨-32000, "boom"⟩ [] rfl).2 (by simp)⟩

/-- C3: the reader loop delivers exactly the messages obtained by trimming
each line, skipping lines empty after trimming, and dropping lines that
fail to decode, in the exact order the lines were read — so a malformed
line never terminates the loop nor blocks later deliveries. -/
theorem readLoop_delivers_in_order (decode : List Nat → Option rpcMessage)
    (lines : List (List Nat)) :
    readLoop decode lines = lines.filterMap (fun line =>
      if (bytesTrimSpace line).length = 0 then none
      else decode (bytesTrimSpace line)) := by
  induction lines with
  | nil => rfl
  | cons l rest ih =>
    by_cases h : bytesTrimSpace l = []
    · simp [readLoop, h, ih, List.filterMap_cons]
    · cases hdec : decode (bytesTrimSpace l) <;>
        simp [readLoop, h, hdec, ih, List.filterMap_cons,
          List.length_eq_zero]

/-- C4: when the cancellation context fires before any error-carrying
message and before any message matching the awaited identifier,
`sendRequest` returns the context's cancellation error, independently of
whatever might still arrive afterwards. -/
theorem sendRequest_cancelled {α : Type} (id : Int) (method : String)
    (params : Json) (out : Option (Json → Option α))
    (pre rest : List rpcEvent)
    (hpre : ∀ ev ∈ pre, ∃ m, ev = rpcEvent.msg m ∧ m.error = none ∧
      idMatches m.id id = false) :
    (sendRequest id method params out true
        (pre ++ rpcEvent.ctxDone :: rest)).1 = SendOutcome.ctxErr := by
  have h := waitLoop_skip_prefix id out pre (rpcEvent.ctxDone :: rest) hpre
  simp [sendRequest, h, waitLoop]

/-- C4 witness: a non-matching message followed by cancellation yields the
cancellation error even though a matching response would arrive later. -/
theorem sendRequest_cancelled_witness :
    (sendRequest (α := Unit) 1 "m" Json.null none true
        [rpcEvent.msg { id := some (Json.num 2) }, rpcEvent.ctxDone,
         rpcEvent.msg { id := some (Json.num 1) }]).1
      = SendOutcome.ctxErr :=
  sendRequest_cancelled 1 "m" Json.null none
    [rpcEvent.msg { id := some (Json.num 2) }]
    [rpcEvent.msg { id := some (Json.num 1) }]
    (by
      intro ev hev
      simp at hev
      exact ⟨{ id := some (Json.num 2) }, hev, rfl, rfl⟩)

/-- C5: a message with no error descriptor and a non-matching identifier is
silently skipped: `sendRequest` behaves on the remaining events exactly as
it would have without that message, so the message alone never causes a
return. -/
theorem sendRequest_skips_unmatched {α : Type} (id : Int) (method : String)
    (params : Json) (out : Option (Json → Option α)) (m : rpcMessage)
    (rest : List rpcEvent) (herr : m.error = none)
    (hid : idMatches m.id id = false) :
    (sendRequest id method params out true (rpcEvent.msg m :: rest)).1
      = (sendRequest id method params out true rest).1 := by
  simp [sendRequest, waitLoop_skip id out m rest herr hid]

/-- C5 witness: a non-matching, error-free message leaves the call waiting
(the outcome over the singleton event list equals the outcome over no
events, i.e. still pending). -/
theorem sendRequest_skips_unmatched_witness :
    (sendRequest (α := Unit) 1 "m" Json.null none true
        [rpcEvent.msg { id := some (Json.str "2") }]).1
      = (sendRequest (α := Unit) 1 "m" Json.null none true []).1 :=
  sendRequest_skips_unmatched 1 "m" Json.null none
    { id := some (Json.str "2") } [] rfl rfl

/-- C9: writes to the child's stdin are serialized by the single mutex,
each write being one complete marshalled message followed by a newline; in
every completed interleaving of concurrent send calls the stream is the
concatenation of complete wire lines in lock-acquisition order, each sent
exactly once — never interleaved partial lines. -/
theorem sendWrites_never_interleave (marshal : Json → List Nat)
    (msgs : List Json) (sched : List Nat) (s2 : WSystem)
    (hrun : wrun (msgs.map (wireLine marshal))
        (winit (msgs.map (wireLine marshal))) sched = some s2)
    (hdone : ∀ t, t < s2.phases.length →
      s2.phases[t]? = some WPhase.finished) :
    s2.stream
      = (s2.order.map fun u =>
          (msgs.map (wireLine marshal)).getD u []).flatten ∧
    s2.order.Nodup ∧ (∀ u ∈ s2.order, u < msgs.length) := by
  have hInv := wrun_preserves _ sched _ s2 (winit_inv _) hrun
  obtain ⟨hlen, hnd, hbound, hidle, hnone, hsome⟩ := hInv
  cases hlk : s2.lock with
  | some t =>
    obtain ⟨em, rem, hph, -⟩ := hsome t hlk
    obtain ⟨ht, -⟩ := List.getElem?_eq_some.mp hph
    have hfin := hdone t ht
    rw [hph] at hfin
    simp at hfin
  | none =>
    refine ⟨(hnone hlk).2, hnd, ?_⟩
    intro u hu
    have hb := hbound u hu
    rw [hlen] at hb
    simpa using hb

/-- C9 witness: two concurrent writers, run to completion under the mutex,
leave the stream as the two complete lines in acquisition order. -/
theorem sendWrites_never_interleave_witness :
    (⟨none, [WPhase.finished, WPhase.finished], [49, 10, 49, 10],
        [0, 1]⟩ : WSystem).stream
      = ((⟨none, [WPhase.finished, WPhase.finished], [49, 10, 49, 10],
            [0, 1]⟩ : WSystem).order.map fun u =>
          ([Json.null, Json.bool true].map
            (wireLine fun _ => [49])).getD u []).flatten ∧
    (⟨none, [WPhase.finished, WPhase.finished], [49, 10, 49, 10],
        [0, 1]⟩ : WSystem).order.Nodup ∧
    (∀ u ∈ (⟨none, [WPhase.finished, WPhase.finished], [49, 10, 49, 10],
        [0, 1]⟩ : WSystem).order, u < [Json.null, Json.bool true].length) :=
  sendWrites_never_interleave (fun _ => [49]) [Json.null, Json.bool true]
    [0, 0, 0, 0, 1, 1, 1, 1]
    ⟨none, [WPhase.finished, WPhase.finished], [49, 10, 49, 10], [0, 1]⟩
    (by rfl) (by decide)

/-- C10: a matching, error-free message without a result payload is not
skipped: with no output slot `sendRequest` returns success at once, and
with an output slot it returns a decode (parse) error from unmarshalling
the absent result. -/
theorem sendRequest_match_absent_result {α : Type} (id : Int)
    (method : String) (params : Json) (m : rpcMessage) (rest : List rpcEvent)
    (herr : m.error = none) (hid : idMatches m.id id = true)
    (hres : m.result = none) :
    (sendRequest (α := α) id method params none true
        (rpcEvent.msg m :: rest)).1 = SendOutcome.ok none ∧
    (∀ dec : Json → Option α,
      (sendRequest id method params (some dec) true
          (rpcEvent.msg m :: rest)).1 = SendOutcome.parseErr) := by
  constructor
  · simp [sendRequest, waitLoop, herr, hid]
  · intro dec
    simp [sendRequest, waitLoop, herr, hid, hres]

/-- C6: when the handshake fails during construction, the constructor
surfaces that same error, tears the partially-started child down via the
close path, and returns no client; in general a constructor error is never
accompanied by a client. -/
theorem newAppServerClient_handshake_failure (w1 w2 : Bool)
    (events : List rpcEvent)
    (hfail : (initializeClient w1 w2 events).1.isOk = false) :
    (newAppServerClient SpawnPhase.started w1 w2 events).err
      = some (ConstructErr.handshakeErr (initializeClient w1 w2 events).1) ∧
    (newAppServerClient SpawnPhase.started w1 w2 events).closeCalled = true ∧
    (newAppServerClient SpawnPhase.started w1 w2 events).clientReturned
      = false ∧
    (∀ (spawn : SpawnPhase) (w1a w2a : Bool) (evs : List rpcEvent),
      ((newAppServerClient spawn w1a w2a evs).err).isSome = true →
      (newAppServerClient spawn w1a w2a evs).clientReturned = false) := by
  refine ⟨?_, ?_, ?_, ?_⟩
  · rcases h : initializeClient w1 w2 events with ⟨o, sent⟩
    rw [h] at hfail
    cases o <;> simp_all [newAppServerClient, SendOutcome.isOk]
  · rcases h : initializeClient w1 w2 events with ⟨o, sent⟩
    rw [h] at hfail
    cases o <;> simp_all [newAppServerClient, SendOutcome.isOk]
  · rcases h : initializeClient w1 w2 events with ⟨o, sent⟩
    rw [h] at hfail
    cases o <;> simp_all [newAppServerClient, SendOutcome.isOk]
  · intro spawn w1a w2a evs herr
    cases spawn with
    | started =>
      rcases h : initializeClient w1a w2a evs with ⟨o, sent⟩
      cases o <;> simp_all [newAppServerClient]
    | stdinPipeFail => simp [newAppServerClient]
    | stdoutPipeFail => simp [newAppServerClient]
    | startFail => simp [newAppServerClient]

/-- C6 witness: with no inbound events the handshake request stays
unanswered (a failure outcome), so construction calls the teardown and
returns no client; an early spawn failure also returns no client. -/
theorem newAppServerClient_handshake_failure_witness :
    (newAppServerClient SpawnPhase.started true true []).closeCalled
      = true ∧
    (newAppServerClient SpawnPhase.started true true []).clientReturned
      = false ∧
    (newAppServerClient SpawnPhase.startFail true true []).clientReturned
      = false :=
  ⟨(newAppServerClient_handshake_failure true true [] rfl).2.1,
   (newAppServerClient_handshake_failure true true [] rfl).2.2.1,
   (newAppServerClient_handshake_failure true true [] rfl).2.2.2
     SpawnPhase.startFail true true [] rfl⟩

/-- C7: construction performs the fixed two-step handshake: the
`initialize` request (identifier 1, client-identity params, 3-second
timeout) is written first; the `initialized` notification with null params
is written only if that request succeeded; construction writes exactly the
handshake's messages and nothing else. -/
theorem newAppServerClient_handshake_steps (w1 w2 : Bool)
    (events : List rpcEvent) :
    appServerInitTimeout = 3 ∧
    ((sendRequest (α := Unit) 1 "initialize" initParams none w1
        events).1.isOk = true →
      (initializeClient w1 w2 events).2
        = [requestPayload 1 "initialize" initParams,
           notificationPayload "initialized" Json.null]) ∧
    ((sendRequest (α := Unit) 1 "initialize" initParams none w1
        events).1.isOk = false →
      (initializeClient w1 w2 events).2
        = [requestPayload 1 "initialize" initParams]) ∧
    (newAppServerClient SpawnPhase.started w1 w2 events).sent
      = (initializeClient w1 w2 events).2 := by
  refine ⟨rfl, ?_, ?_, ?_⟩
  · intro hok
    cases w1 with
    | false => simp [sendRequest, SendOutcome.isOk] at hok
    | true =>
      rcases ho : waitLoop (α := Unit) 1 none events with v | _ | _ | t | _ | _ | _ <;>
        simp_all [initializeClient, sendRequest, sendNotification,
          SendOutcome.isOk]
  · intro hbad
    cases w1 with
    | false => simp [initializeClient, sendRequest]
    | true =>
      rcases ho : waitLoop (α := Unit) 1 none events with v | _ | _ | t | _ | _ | _ <;>
        simp_all [initializeClient, sendRequest, sendNotification,
          SendOutcome.isOk]
  · rcases h : initializeClient w1 w2 events with ⟨o, sent⟩
    cases o <;> simp_all [newAppServerClient]

/-- C7 witness: with an immediate error-free response to identifier 1 the
handshake succeeds and exactly the two handshake messages are written, in
order. -/
theorem newAppServerClient_handshake_steps_witness :
    (initializeClient true true
        [rpcEvent.msg { id := some (Json.num 1) }]).2
      = [requestPayload 1 "initialize" initParams,
         notificationPayload "initialized" Json.null] :=
  (newAppServerClient_handshake_steps true true
    [rpcEvent.msg { id := some (Json.num 1) }]).2.1 rfl

/-- C8: `Close` attempts all four teardown steps in source order whatever
errors the individual steps produce, surfaces no error, and a repeated
call again attempts all four steps and surfaces no error. -/
theorem closeClient_teardown (errs errsAgain : TeardownErrs) (s : ProcState) :
    (closeClient errs s).2.1
      = [TeardownStep.closeStdin, TeardownStep.closeStdout,
         TeardownStep.killProc, TeardownStep.waitProc] ∧
    (closeClient errs s).2.2 = none ∧
    ((closeClient errs s).1.stdinClosed = true ∧
     (closeClient errs s).1.stdoutClosed = true ∧
     (closeClient errs s).1.killed = true ∧
     (closeClient errs s).1.waited = true) ∧
    (closeClient errsAgain (closeClient errs s).1).2.2 = none ∧
    (closeClient errsAgain (closeClient errs s).1).2.1
      = (closeClient errs s).2.1 := by
  simp [closeClient, closeStdinOp, closeStdoutOp, killOp, waitOp]

/-- C10 witness: a result-less response matching identifier 5 returns
success when no output slot was given and a parse error when one was. -/
theorem sendRequest_match_absent_result_witness :
    (sendRequest (α := Int) 5 "m" Json.null none true
        [rpcEvent.msg { id := some (Json.num 5) }]).1 = SendOutcome.ok none ∧
    (sendRequest 5 "m" Json.null (some goUnmarshalInt) true
        [rpcEvent.msg { id := some (Json.num 5) }]).1
      = SendOutcome.parseErr :=
  ⟨(sendRequest_match_absent_result 5 "m" Json.null
      { id := some (Json.num 5) } [] rfl rfl rfl).1,
   (sendRequest_match_absent_result 5 "m" Json.null
      { id := some (Json.num 5) } [] rfl rfl rfl).2 goUnmarshalInt⟩

end Ccstats
